import Mathlib

/-!
Shallow embedding of the igntcbb repository (src/igntcbb/ParseGenConfig.py and
src/igntcbb/PollIGNTC.py) and proofs about the claims of its specification.

Python strings are modelled as Lean String values; Python machine integers are
Int (register words are Nat below 65536, with two-complement conversion made
explicit); Python floats are modelled as exact rationals (no claim here depends
on float rounding); Python exceptions (ValueError, KeyError, TypeError,
IndexError, struct.error, UnboundLocalError) are modelled with Except String.
Loops whose Python form advances a line counter are modelled with an explicit
fuel argument chosen at the call site as (number of lines + 1), which the
Python loop can never exceed before running into its IndexError.
-/

deriving instance DecidableEq for Except

/-! ## Python string and int primitives -/

/-- Python s.replace(c, r-empty): remove every occurrence of a single character. -/
def removeChar (c : Char) (s : String) : String :=
  ⟨s.toList.filter (fun x => x ≠ c)⟩

/-- One left-to-right pass removing non-overlapping occurrences of CR LF,
modelling the Python replace of a carriage-return/line-feed pair by the
empty string. -/
def replaceCRLFAux : List Char → List Char
  | [] => []
  | '\r' :: '\n' :: rest => replaceCRLFAux rest
  | c :: rest => c :: replaceCRLFAux rest

def replaceCRLF (s : String) : String := ⟨replaceCRLFAux s.toList⟩

/-- Python slice s[0:n]. -/
def pyTake (n : Nat) (s : String) : String := ⟨s.toList.take n⟩

/-- Python slice s[n:]. -/
def pyDrop (n : Nat) (s : String) : String := ⟨s.toList.drop n⟩

/-- Python slice s[a:b] for a ≤ b. -/
def pySlice (s : String) (a b : Nat) : String := ⟨(s.toList.drop a).take (b - a)⟩

/-- Python s.strip() on the whitespace found in this file format. -/
def pyStrip (s : String) : String :=
  ⟨((s.toList.dropWhile Char.isWhitespace).reverse.dropWhile Char.isWhitespace).reverse⟩

/-- ASCII lower-casing of one character, as Python str.lower acts on the
ASCII-only identifiers of the register map. -/
def lowerChar (c : Char) : Char :=
  if 'A' ≤ c ∧ c ≤ 'Z' then Char.ofNat (c.toNat + 32) else c

/-- Python s.lower() on ASCII text. -/
def pyLower (s : String) : String := ⟨s.toList.map lowerChar⟩

/-- Python s.strip(NUL): strip NUL characters from both ends. -/
def stripNulls (s : String) : String :=
  ⟨((s.toList.dropWhile (fun c => c = '\x00')).reverse.dropWhile (fun c => c = '\x00')).reverse⟩

def digitsToNat (l : List Char) : Nat :=
  l.foldl (fun a c => a * 10 + (c.toNat - 48)) 0

/-- Python int(s): optional surrounding whitespace, optional sign, a nonempty
run of decimal digits; anything else raises ValueError (here: none). -/
def pyInt (s : String) : Option Int :=
  let t := (pyStrip s).toList
  match t with
  | [] => none
  | '-' :: rest =>
      if rest ≠ [] ∧ rest.all Char.isDigit then some (-(digitsToNat rest : Int)) else none
  | '+' :: rest =>
      if rest ≠ [] ∧ rest.all Char.isDigit then some (digitsToNat rest : Int) else none
  | _ =>
      if t.all Char.isDigit then some (digitsToNat t : Int) else none

/-- Fallible version of pyInt: a failing conversion is the Python ValueError. -/
def pyIntE (s : String) : Except String Int :=
  match pyInt s with
  | some n => Except.ok n
  | none => Except.error "ValueError"

def listIsInfix (needle : List Char) : List Char → Bool
  | [] => needle.isEmpty
  | c :: rest => needle.isPrefixOf (c :: rest) || listIsInfix needle rest

/-- The Python containment test needle in hay on strings. -/
def strContains (needle hay : String) : Bool := listIsInfix needle.toList hay.toList

/-- Binary digits of n, least significant first (fuel-driven; fuel ≥ n suffices). -/
def natToBinGo : Nat → Nat → List Char
  | 0, _ => []
  | _ + 1, 0 => []
  | fuel + 1, n + 1 =>
      (if (n + 1) % 2 == 1 then '1' else '0') :: natToBinGo fuel ((n + 1) / 2)

/-- Python bin(n) with the 0b prefix removed. -/
def natToBin (n : Nat) : String :=
  if n == 0 then "0" else ⟨(natToBinGo n n).reverse⟩

/-- Hexadecimal digits of n, least significant first (fuel-driven). -/
def natToHexGo : Nat → Nat → List Char
  | 0, _ => []
  | _ + 1, 0 => []
  | fuel + 1, n + 1 =>
      (let d := (n + 1) % 16
       if d < 10 then Char.ofNat (48 + d) else Char.ofNat (87 + d)) ::
        natToHexGo fuel ((n + 1) / 16)

/-- Python hex(n) with the 0x prefix removed (n nonnegative). -/
def natToHex (n : Nat) : String :=
  if n == 0 then "0" else ⟨(natToHexGo n n).reverse⟩

/-- Python s.zfill(w): left-pad with zero characters to width w. -/
def zfill (w : Nat) (s : String) : String :=
  ⟨List.replicate (w - s.length) '0' ++ s.toList⟩

/-- Python s[-1-i]: character i places before the end, IndexError if out of range. -/
def pyNegIndex (s : String) (i : Nat) : Except String Char :=
  let cs := s.toList
  if h : i < cs.length then
    Except.ok (cs.get ⟨cs.length - 1 - i, by omega⟩)
  else Except.error "IndexError"

/-! ## The pymodbus payload decoder, as used by Register.decode

BinaryPayloadDecoder.fromRegisters with big-endian byte order turns the word
list into a byte stream (high byte first) and keeps a running pointer; each
decode call consumes bytes from the pointer on.  Reading past the end of the
payload is the struct.error of the Python library. -/

def wordsToBytes (data : List Nat) : List Nat :=
  data.flatMap (fun w => [w / 256 % 256, w % 256])

def byteAt (bytes : List Nat) (i : Nat) : Except String Nat :=
  match bytes.get? i with
  | some b => Except.ok b
  | none => Except.error "struct.error"

def decodeU16 (bytes : List Nat) (off : Nat) : Except String Nat := do
  let b0 ← byteAt bytes off
  let b1 ← byteAt bytes (off + 1)
  Except.ok (b0 * 256 + b1)

def decodeU32 (bytes : List Nat) (off : Nat) : Except String Nat := do
  let b0 ← byteAt bytes off
  let b1 ← byteAt bytes (off + 1)
  let b2 ← byteAt bytes (off + 2)
  let b3 ← byteAt bytes (off + 3)
  Except.ok (((b0 * 256 + b1) * 256 + b2) * 256 + b3)

/-- Two-complement reading of a 16 bit word. -/
def toS16 (w : Nat) : Int := if w < 32768 then (w : Int) else (w : Int) - 65536

/-- Two-complement reading of a 32 bit word. -/
def toS32 (w : Nat) : Int := if w < 2147483648 then (w : Int) else (w : Int) - 4294967296

/-- pymodbus decode_bits: one byte, bits least significant first; an empty
payload yields an empty bit list. -/
def decodeBits (bytes : List Nat) : List Bool :=
  match bytes.head? with
  | none => []
  | some b => (List.range 8).map (fun i => b / 2 ^ i % 2 == 1)

def bytesToChars (bytes : List Nat) : String := ⟨bytes.map (fun b => Char.ofNat b)⟩

/-! ## Register values and the Register class of PollIGNTC.py -/

/-- A decoded Python value: a number (int or float, floats modelled as exact
rationals), a text string, a bit list (decode_bits) or a list of strings
(the Time and Date hex renderings). -/
inductive PValue where
  | num (q : ℚ)
  | str (s : String)
  | bits (bs : List Bool)
  | strs (l : List String)
deriving DecidableEq

/-- The scaler 10 ** (-decimals) of the facade: a Python int when decimals ≤ 0,
a Python float (exact rational here) when decimals > 0.  The distinction is
kept because Python multiplies a string by an int (repetition) but raises
TypeError multiplying a string by a float. -/
inductive Scaler where
  | int (n : Int)
  | flt (q : ℚ)
deriving DecidableEq

def Scaler.toRat : Scaler → ℚ
  | .int n => (n : ℚ)
  | .flt q => q

/-- A custom type value map: Python dict from int to str, in insertion order. -/
def Typemap := List (Int × String)
deriving instance DecidableEq for Typemap

def tmInsert : Typemap → Int → String → Typemap
  | [], k, v => [(k, v)]
  | (k1, v1) :: rest, k, v =>
      if k1 == k then (k, v) :: rest else (k1, v1) :: tmInsert rest k v

def tmLookup (tm : Typemap) (k : Int) : Option String := List.lookup k tm

def tmLen (tm : Typemap) : Nat := List.length tm

/-- The params dictionary of the Register class. -/
structure RegParams where
  register : Int
  address : Int
  points : Int
  desc : String
  units : String
  datatype : String
  value : Option PValue
  min : Option ℚ
  max : Option ℚ
  scaler : Option Scaler
  format : Option String
deriving DecidableEq

structure Register where
  params : RegParams
  typemap : Option Typemap
deriving DecidableEq

/-- Register.init of PollIGNTC.py: the params dictionary is filled in,
with address computed as register - 40000 - 1 and value starting as None. -/
def Register.init (register : Int) (points : Int) (description units datatype : String)
    (scaler : Option Scaler) (format : Option String)
    (min max : Option ℚ) (typemap : Option Typemap) : Register :=
  { params :=
      { register := register
        address := register - 40000 - 1
        points := points
        desc := description
        units := units
        datatype := datatype
        value := none
        min := min
        max := max
        scaler := scaler
        format := format }
    typemap := typemap }

/-- Python s * n (string repetition; n ≤ 0 gives the empty string). -/
def pyRepeatStr (s : String) (n : Int) : String :=
  ⟨(List.replicate n.toNat s.toList).flatten⟩

/-- Python l * n (list repetition). -/
def pyRepeatList {α : Type} (l : List α) (n : Int) : List α :=
  (List.replicate n.toNat l).flatten

/-- Python v * scaler at the end of Register.decode: numbers multiply; a
sequence times an int is repetition; a sequence times a float is TypeError. -/
def pyMulScaler (v : PValue) (sc : Scaler) : Except String PValue :=
  match v, sc with
  | .num q, .int n => Except.ok (.num (q * (n : ℚ)))
  | .num q, .flt f => Except.ok (.num (q * f))
  | .str s, .int n => Except.ok (.str (pyRepeatStr s n))
  | .bits b, .int n => Except.ok (.bits (pyRepeatList b n))
  | .strs l, .int n => Except.ok (.strs (pyRepeatList l n))
  | _, .flt _ => Except.error "TypeError"

/-- The final scaling step of Register.decode: if the scaler is not None the
current value is multiplied by it, whatever it is (multiplying None raises
TypeError in Python). -/
def applyScaler : Option Scaler → Option PValue → Except String (Option PValue)
  | none, v => Except.ok v
  | some _, none => Except.error "TypeError"
  | some sc, some v => (pyMulScaler v sc).map some

/-- The cascade of datatype tests at the top of Register.decode.  At most one
branch assigns the local variable value (none when no branch matched); the
returned offset is the number of payload bytes the branch consumed, which is
where a later decode_16bit_uint call will read. -/
def decodeBasic (dt : String) (len : Int) (bytes : List Nat) (data : List Nat) :
    Except String (Option PValue × Nat) :=
  if dt == "Integer" && (len == 1 || len == 2) then do
    let w ← decodeU16 bytes 0
    Except.ok (some (.num ((toS16 w : Int) : ℚ)), 2)
  else if dt == "Integer" && len == 4 then do
    let w ← decodeU32 bytes 0
    Except.ok (some (.num ((toS32 w : Int) : ℚ)), 4)
  else if dt == "Unsigned" && (len == 1 || len == 2) then do
    let w ← decodeU16 bytes 0
    Except.ok (some (.num (w : ℚ)), 2)
  else if dt == "Unsigned" && len == 4 then do
    let w ← decodeU32 bytes 0
    Except.ok (some (.num (w : ℚ)), 4)
  else if dt == "String0" then
    Except.ok (some (.str (stripNulls (bytesToChars (bytes.take (2 * len).toNat)))), (2 * len).toNat)
  else if dt == "Char" then
    Except.ok (some (.str (stripNulls (bytesToChars (bytes.take 8)))), 8)
  else if dt == "Binary" then
    Except.ok (some (.bits (decodeBits bytes)), 1)
  else if dt == "Time" || dt == "Date" then
    Except.ok (some (.strs (data.map (fun x => zfill 6 (natToHex x)))), 0)
  else
    Except.ok (none, 0)

/-- The loop body of the binary custom-type branch: for i in range(num_bits),
look up label i in the typemap (KeyError when absent) and take character
binary[-1-i] of the zero-filled binary rendering (IndexError when i is past
its length). -/
def overlayGo (tm : Typemap) (binary : String) : Nat → Nat → Except String (List String)
  | _, 0 => Except.ok []
  | i, rem + 1 => do
      let lbl ← match tmLookup tm (i : Int) with
        | some l => Except.ok l
        | none => Except.error "KeyError"
      let c ← pyNegIndex binary i
      let rest ← overlayGo tm binary (i + 1) rem
      Except.ok ((lbl ++ ": " ++ String.singleton c) :: rest)

/-- The binary custom-type branch of Register.decode: render the decoded word
as a 16 character zero-filled binary string and join the per-bit lines. -/
def binaryOverlay (tm : Typemap) (decoded : Nat) : Except String String := do
  let binary := zfill 16 (natToBin decoded)
  let lines ← overlayGo tm binary 0 (tmLen tm)
  Except.ok (String.intercalate ", " lines)

/-- Register.decode, reduced to the value it stores into params.  The datatype
cascade runs first (possibly consuming payload bytes); when a typemap is
attached, one unsigned 16 bit word is decoded at the current pointer and the
binary and list substring tests replace the stored value; without a typemap the
cascade result is stored (an unmatched datatype leaves the Python local
variable unbound: UnboundLocalError).  Finally the scaler, when present, is
applied to whatever value is current. -/
def Register.decodeValue (r : Register) (data : List Nat) : Except String (Option PValue) := do
  let bytes := wordsToBytes data
  let dt := r.params.datatype
  let (basic, off) ← decodeBasic dt r.params.points bytes data
  match r.typemap with
  | some tm => do
      let decoded ← decodeU16 bytes off
      let v1 ← if strContains "binary" dt then do
          let s ← binaryOverlay tm decoded
          Except.ok (some (PValue.str s))
        else Except.ok r.params.value
      let v2 ← if strContains "list" dt then
          match tmLookup tm (decoded : Int) with
          | some lbl => Except.ok (some (PValue.str (toString decoded ++ ": " ++ lbl)))
          | none => Except.error "KeyError"
        else Except.ok v1
      applyScaler r.params.scaler v2
  | none =>
      match basic with
      | none => Except.error "UnboundLocalError"
      | some v => applyScaler r.params.scaler (some v)

/-- Register.decode mutates only params.value; every other field is carried
over unchanged. -/
def Register.decode (r : Register) (data : List Nat) : Except String Register :=
  (r.decodeValue data).map (fun v => { r with params := { r.params with value := v } })

/-- Register.validate: None when no value was decoded; True immediately for a
datatype containing the list marker; otherwise False when the value falls
outside a declared bound and True when it does not.  Comparing a non-numeric
value against a numeric bound is the Python TypeError. -/
def Register.validate (r : Register) : Except String (Option Bool) :=
  match r.params.value with
  | none => Except.ok none
  | some v =>
    if strContains "list" r.params.datatype then Except.ok (some true)
    else do
      let failLow ← match r.params.min with
        | none => Except.ok false
        | some m =>
            match v with
            | PValue.num q => Except.ok (decide (q < m))
            | _ => Except.error "TypeError"
      if failLow then Except.ok (some false)
      else do
        let failHigh ← match r.params.max with
          | none => Except.ok false
          | some m =>
              match v with
              | PValue.num q => Except.ok (decide (m < q))
              | _ => Except.error "TypeError"
        if failHigh then Except.ok (some false) else Except.ok (some true)

/-! ## ParseGenConfig.parse_register -/

/-- One parsed register row: the dictionary built by parse_register.  The min
and max fields are still the raw stripped strings at this stage (None for the
dash placeholder); reparse_min_max_values later resolves and converts them. -/
structure ParsedRegister where
  register : Int
  comm_obj : Int
  name : String
  units : String
  datatype : String
  points : Int
  decimals : Option Int
  min : Option String
  max : Option String
  group : String
deriving DecidableEq

/-- ParseGenConfig.parse_register: fixed column slicing, whitespace stripping,
integer conversion of the leading five characters of the register field and
of the comm-object and point-count fields (ValueError on failure), dash
placeholders turning units into the empty string and decimals, min, max into
None, and hash-marked datatypes being stripped of the hash and lower-cased. -/
def parse_register (line : String) : Except String ParsedRegister := do
  let registerF := pyStrip (pySlice line 0 17)
  let comm_objF := pyStrip (pySlice line 17 26)
  let nameF := pyStrip (pySlice line 26 41)
  let unitsF := pyStrip (pySlice line 41 46)
  let datatypeF := pyStrip (pySlice line 46 57)
  let pointsF := pyStrip (pySlice line 57 61)
  let decimalsF := pyStrip (pySlice line 61 64)
  let minF := pyStrip (pySlice line 64 71)
  let maxF := pyStrip (pySlice line 71 78)
  let groupF := pyStrip (pyDrop 78 line)
  let register ← pyIntE (pyTake 5 registerF)
  let comm_obj ← pyIntE comm_objF
  let units := if unitsF == "-" then "" else unitsF
  let datatype := if strContains "#" datatypeF then pyLower (removeChar '#' datatypeF) else datatypeF
  let points ← pyIntE pointsF
  let decimals ← if decimalsF == "-" then Except.ok none else (pyIntE decimalsF).map some
  let min := if minF == "-" then none else some minF
  let max := if maxF == "-" then none else some maxF
  Except.ok
    { register := register
      comm_obj := comm_obj
      name := nameF
      units := units
      datatype := datatype
      points := points
      decimals := decimals
      min := min
      max := max
      group := groupF }

/-! ## The register-table phase of ParseGenConfig.parse

The loop starts at line index 2, strips carriage returns from the current
line, stops on an exactly blank line, and otherwise feeds the line to
parse_register and appends the result.  parse_register never returns None (its
integer conversions raise instead), so the branch of the source that would set
a flag on a None result is unreachable; a conversion failure propagates out of
the loop.  Running past the end of the file is the Python IndexError. -/

def parseRegistersGo (contents : List String) : Nat → Nat → List ParsedRegister →
    Except String (List ParsedRegister × Nat)
  | 0, _, _ => Except.error "IndexError"
  | fuel + 1, lineNum, acc =>
    match contents.get? lineNum with
    | none => Except.error "IndexError"
    | some raw =>
      let line := removeChar '\r' raw
      if line == "\n" then Except.ok (acc, lineNum)
      else do
        let pr ← parse_register line
        parseRegistersGo contents fuel (lineNum + 1) (acc ++ [pr])

/-- The register-table phase, entered at line 2 with fuel that the loop cannot
exhaust before its Python counterpart raises IndexError. -/
def parseRegisters (contents : List String) : Except String (List ParsedRegister × Nat) :=
  parseRegistersGo contents (contents.length + 1) 2 []

/-! ## ParseGenConfig.reparse_min_max_values -/

/-- Resolution of one raw bound against the current register list: a bound
containing a star parses the referenced comm-object id (ValueError on
failure), finds the first register with that comm_obj and takes its bound on
the selected side, or becomes None when no register matches. -/
def resolveBound1 (commObjs : List Int) (regs : List ParsedRegister)
    (b : Option String) : Except String (Option String) :=
  match b with
  | none => Except.ok none
  | some s =>
    if s.toList.contains '*' then
      match pyInt (removeChar '*' s) with
      | none => Except.error "ValueError"
      | some n =>
        match commObjs.findIdx? (fun c => c == n) with
        | some j => Except.ok (match regs.get? j with | some r => r.max | none => none)
        | none => Except.ok none
    else Except.ok (some s)

/-- Same resolution for the min side. -/
def resolveBound1Min (commObjs : List Int) (regs : List ParsedRegister)
    (b : Option String) : Except String (Option String) :=
  match b with
  | none => Except.ok none
  | some s =>
    if s.toList.contains '*' then
      match pyInt (removeChar '*' s) with
      | none => Except.error "ValueError"
      | some n =>
        match commObjs.findIdx? (fun c => c == n) with
        | some j => Except.ok (match regs.get? j with | some r => r.min | none => none)
        | none => Except.ok none
    else Except.ok (some s)

/-- One iteration of the reparse loop: register i has its max resolved first
and written back, then its min resolved against the already-updated list,
mirroring the in-place dictionary mutation of the source. -/
def processOne (commObjs : List Int) (regs : List ParsedRegister) (i : Nat) :
    Except String (List ParsedRegister) :=
  match regs.get? i with
  | none => Except.ok regs
  | some r => do
    let newMax ← resolveBound1 commObjs regs r.max
    let regs1 := regs.set i { r with max := newMax }
    match regs1.get? i with
    | none => Except.ok regs1
    | some r1 => do
      let newMin ← resolveBound1Min commObjs regs1 r1.min
      Except.ok (regs1.set i { r1 with min := newMin })

/-- The reparse loop over register indices; the iteration count is fixed to
the initial list length, as the Python for loop is. -/
def reparseLoopN (commObjs : List Int) : Nat → Nat → List ParsedRegister →
    Except String (List ParsedRegister)
  | 0, _, regs => Except.ok regs
  | fuel + 1, i, regs => do
    let regs1 ← processOne commObjs regs i
    reparseLoopN commObjs fuel (i + 1) regs1

/-- A register row after bound resolution and integer conversion. -/
structure ResolvedRegister where
  register : Int
  comm_obj : Int
  name : String
  units : String
  datatype : String
  points : Int
  decimals : Option Int
  min : Option Int
  max : Option Int
  group : String
deriving DecidableEq

/-- The final conversion pass of reparse_min_max_values: every bound string
still present is converted with int (ValueError propagates). -/
def convertBounds (r : ParsedRegister) : Except String ResolvedRegister := do
  let mn ← match r.min with
    | none => Except.ok none
    | some s => (pyIntE s).map some
  let mx ← match r.max with
    | none => Except.ok none
    | some s => (pyIntE s).map some
  Except.ok
    { register := r.register
      comm_obj := r.comm_obj
      name := r.name
      units := r.units
      datatype := r.datatype
      points := r.points
      decimals := r.decimals
      min := mn
      max := mx
      group := r.group }

/-- ParseGenConfig.reparse_min_max_values: the comm-object index list is taken
once up front, the resolution loop runs over every register, and all surviving
bounds are converted to integers. -/
def reparse_min_max_values (regs : List ParsedRegister) :
    Except String (List ResolvedRegister) := do
  let regs1 ← reparseLoopN (regs.map (fun r => r.comm_obj)) regs.length 0 regs
  regs1.mapM convertBounds

/-! ## The equals-marker search of ParseGenConfig.parse -/

def elevenEquals : String := "==========="

def eqMark (contents : List String) (q : Nat) : Bool :=
  pyTake 11 (removeChar '\r' (contents.getD q "")) == elevenEquals

/-- The search loop for the custom-type section header: scan forward until the
lines at the current index and two further both start with eleven equals
characters; the loop variable then advances by two inside the loop and once
more at its foot, so scanning resumes one line past the second marker. -/
def searchEqualsGo (contents : List String) : Nat → Nat → Except String Nat
  | 0, _ => Except.error "IndexError"
  | fuel + 1, lineNum =>
    match contents.get? lineNum, contents.get? (lineNum + 2) with
    | some r1, some r2 =>
      if pyTake 11 (removeChar '\r' r1) == elevenEquals
          && pyTake 11 (removeChar '\r' r2) == elevenEquals then
        Except.ok (lineNum + 3)
      else searchEqualsGo contents fuel (lineNum + 1)
    | _, _ => Except.error "IndexError"

def searchEquals (contents : List String) (lineNum : Nat) : Except String Nat :=
  searchEqualsGo contents (contents.length + 1) lineNum

/-! ## ParseGenConfig.find_and_parse_type -/

def elevenDashes : String := "-----------"

def typeTerminator : String := "Table# Types Meaning"

def dashRule86 : String := ⟨List.replicate 86 '-'⟩

/-- The acceptance shape of the custom-type header search: an eleven-dash rule
at p, a header literal at p + 3 and another eleven-dash rule at p + 4. -/
def shapeAt (contents : List String) (p : Nat) : Bool :=
  pyTake 11 (removeChar '\r' (contents.getD p "")) == elevenDashes
    && (replaceCRLF (contents.getD (p + 3) "") == "Bit  Name"
        || replaceCRLF (contents.getD (p + 3) "") == "Value  Name")
    && pyTake 11 (removeChar '\r' (contents.getD (p + 4) "")) == elevenDashes

/-- The header-search loop of find_and_parse_type: stop with the terminator
position on the terminator literal; otherwise accept when the line at the
current index starts with eleven dashes, the line three further equals one of
the two header literals and the line four further starts with eleven dashes
(the lines three and four further are fetched before the test, so their
absence is an IndexError even on non-matching lines).  On acceptance the type
name is the line one past the rule, hash-stripped and lower-cased, and body
parsing starts five lines past the rule. -/
def searchTypeStartGo (contents : List String) : Nat → Nat → Except String (Nat ⊕ (String × Nat))
  | 0, _ => Except.error "IndexError"
  | fuel + 1, lineNum =>
    match contents.get? lineNum with
    | none => Except.error "IndexError"
    | some raw =>
      if replaceCRLF raw == typeTerminator then Except.ok (Sum.inl lineNum)
      else
        match contents.get? (lineNum + 3), contents.get? (lineNum + 4) with
        | some l3, some l4 =>
          if pyTake 11 (removeChar '\r' raw) == elevenDashes
              && (replaceCRLF l3 == "Bit  Name" || replaceCRLF l3 == "Value  Name")
              && pyTake 11 (removeChar '\r' l4) == elevenDashes then
            match contents.get? (lineNum + 1) with
            | some l1 => Except.ok (Sum.inr (pyLower (removeChar '#' (replaceCRLF l1)), lineNum + 5))
            | none => Except.error "IndexError"
          else searchTypeStartGo contents fuel (lineNum + 1)
        | _, _ => Except.error "IndexError"

def searchTypeStart (contents : List String) (lineNum : Nat) : Except String (Nat ⊕ (String × Nat)) :=
  searchTypeStartGo contents (contents.length + 1) lineNum

/-- The body loop of find_and_parse_type: stop on an exactly blank line or on
the long dash rule; otherwise parse the integer in the first splitInd
characters (ValueError propagates) and the stripped remainder as its label. -/
def parseTypeBodyGo (contents : List String) (splitInd : Nat) : Nat → Nat → Typemap →
    Except String (Typemap × Nat)
  | 0, _, _ => Except.error "IndexError"
  | fuel + 1, lineNum, vm =>
    match contents.get? lineNum with
    | none => Except.error "IndexError"
    | some raw =>
      if raw == "\r\n" || raw == dashRule86 ++ "\r\n" then Except.ok (vm, lineNum)
      else do
        let line := replaceCRLF raw
        let v ← pyIntE (pyStrip (pyTake splitInd line))
        let name := pyStrip (pyDrop splitInd line)
        parseTypeBodyGo contents splitInd fuel (lineNum + 1) (tmInsert vm v name)

/-- ParseGenConfig.find_and_parse_type: search for the next header shape, then
parse the value map with split column 4 for binary-kind names and 6 otherwise.
Returns None with the final position when the terminator literal is reached. -/
def find_and_parse_type (contents : List String) (lineNum : Nat) :
    Except String (Option (String × Typemap) × Nat) := do
  match ← searchTypeStart contents lineNum with
  | Sum.inl termPos => Except.ok (none, termPos)
  | Sum.inr (typeName, startLine) =>
    let splitInd := if strContains "binary" typeName then 4 else 6
    let (vm, endLine) ← parseTypeBodyGo contents splitInd (contents.length + 1) startLine []
    Except.ok (some (typeName, vm), endLine)

/-! ## The polling facade (IGNTCModbusReadRegisters) -/

/-- The scaler 10 ** (-decimals) computed by the facade constructor: a Python
float for positive decimals, a Python int otherwise. -/
def mkScaler : Option Int → Option Scaler
  | none => none
  | some d => some (if 0 < d then Scaler.flt ((1 : ℚ) / 10 ^ d.toNat) else Scaler.int (10 ^ (-d).toNat))

/-- Construction of one Register by the facade constructor: bounds are scaled
by the scaler when one is declared, the typemap is looked up by datatype in
the parsed custom types (absent on a miss), and Register.init fills params. -/
def mkRegister (pr : ResolvedRegister) (customTypes : List (String × Typemap)) : Register :=
  let scalar := mkScaler pr.decimals
  let minv : Option ℚ := match scalar, pr.min with
    | none, m => m.map (fun x => (x : ℚ))
    | some sc, some m => some ((m : ℚ) * sc.toRat)
    | some _, none => none
  let maxv : Option ℚ := match scalar, pr.max with
    | none, m => m.map (fun x => (x : ℚ))
    | some sc, some m => some ((m : ℚ) * sc.toRat)
    | some _, none => none
  Register.init pr.register pr.points pr.name pr.units pr.datatype scalar none
    minv maxv (customTypes.lookup pr.datatype)

/-- The decode loop of query_all_parameters over one flattened batch: a failed
transport read (None) is reported and skipped with continue, but an exception
escaping Register.decode is not caught anywhere and aborts the whole loop. -/
def query_all_parameters (regs : List (Register × Option (List Nat))) :
    Except String (List Register) :=
  match regs with
  | [] => Except.ok []
  | (_, none) :: rest => query_all_parameters rest
  | (r, some data) :: rest => do
    let r1 ← r.decode data
    let rest1 ← query_all_parameters rest
    Except.ok (r1 :: rest1)

/-! ## Concrete fixtures used by the claim theorems and witnesses -/

/-- A list-kind value map with the single key 5. -/
def listTm : Typemap := [((5 : Int), "Run")]

/-- A list-typed register with declared bounds, as built for a List#1 row. -/
def c1reg : Register :=
  Register.init 40100 1 "Engine state" "" "list1" none none (some 100) (some 200) (some listTm)

/-- A register whose params already hold a decoded list label. -/
def c1regDecoded : Register :=
  { params :=
      { register := 40100, address := 40100 - 40000 - 1, points := 1, desc := "Engine state",
        units := "", datatype := "list1", value := some (PValue.str "5: Run"),
        min := some 100, max := some 200, scaler := none, format := none }
    typemap := some listTm }

/-- A register with no decoded value yet. -/
def c1regEmpty : Register :=
  Register.init 40100 1 "Engine state" "" "list1" none none (some 100) (some 200) (some listTm)

/-- A register row of rendered text with one declared decimal digit. -/
def c3strRow : ResolvedRegister :=
  { register := 43001, comm_obj := 8637, name := "Gen-set name", units := "",
    datatype := "String0", points := 2, decimals := some 1, min := none, max := none,
    group := "Comms settings" }

def c3strReg : Register := mkRegister c3strRow []

/-- A numeric register row with one declared decimal digit. -/
def c3intRow : ResolvedRegister :=
  { register := 40010, comm_obj := 8001, name := "Nominal RPM", units := "RPM",
    datatype := "Integer", points := 1, decimals := some 1, min := none, max := none,
    group := "Engine params" }

def c3intReg : Register := mkRegister c3intRow []

/-- A list-typed register without bounds or scaler. -/
def c4reg : Register :=
  Register.init 40100 1 "Engine state" "" "list1" none none none none (some listTm)

/-- A plain numeric register that decodes cleanly, queued after the failing one. -/
def c4regAfter : Register :=
  Register.init 40010 1 "Nominal RPM" "RPM" "Unsigned" none none none none none

/-- A binary-kind register over the two-bit map used by the specification
example. -/
def c5tm : Typemap := [((0 : Int), "A"), (1, "B")]

/-- A binary-kind value map whose only key is the bit index 1: the claim
quantifies over the key set, the code iterates over 0 ≤ i < size instead. -/
def c5tmGap : Typemap := [((1 : Int), "X")]

def c5reg : Register :=
  Register.init 40200 1 "BIN" "" "binary1" none none none none (some c5tmGap)

/-- A text register row used by the C10 witness. -/
def c10row : ResolvedRegister :=
  { register := 43001, comm_obj := 8637, name := "Gen-set name", units := "",
    datatype := "String0", points := 1, decimals := none, min := none, max := none,
    group := "Comms settings" }

def c10reg : Register := mkRegister c10row []

/-- A register-table line whose datatype field is Integer with no hash mark. -/
def c2line : String :=
  "40010            " ++ "8001     " ++ "Nominal RPM    " ++ "RPM  " ++ "Integer    " ++
    "1   " ++ "-  " ++ "-      " ++ "-      " ++ "Engine params\n"

/-- The row c2line parses to. -/
def c2rec : ParsedRegister :=
  { register := 40010, comm_obj := 8001, name := "Nominal RPM", units := "RPM",
    datatype := "Integer", points := 1, decimals := none, min := none, max := none,
    group := "Engine params" }

/-- A register-table line whose comm-object field is not numeric. -/
def c7badLine : String :=
  "40011            " ++ "ABC      " ++ "Broken row\r\n"

/-- A register map prefix: two header lines, one good row, one row with a
non-numeric comm-object field, then a blank line. -/
def c7contents : List String :=
  ["IGS-NT GenConfig exported registers\r\n",
   "Register(s)      Com.Obj. Name           Dim  Type       Len Dec   Min    Max Group\r\n",
   "40010            " ++ "8001     " ++ "Nominal RPM    " ++ "RPM  " ++ "Integer    " ++
     "1   " ++ "-  " ++ "-      " ++ "-      " ++ "Engine params\r\n",
   c7badLine,
   "\r\n"]

/-- Lines shaped exactly as claim C8 describes the acceptance pattern: a rule,
then a header two lines later, then a rule one line after that. -/
def c8claimShaped : List String :=
  ["-----------\r\n",
   "List#1\r\n",
   "Value  Name\r\n",
   "-----------\r\n",
   "Table# Types Meaning\r\n",
   "x\r\n",
   "x\r\n",
   "x\r\n",
   "x\r\n"]

/-- Lines shaped as the source actually accepts: rule, name, blank line,
header, rule, then a body row and a blank line. -/
def c8codeShaped : List String :=
  ["-----------\r\n",
   "List#1\r\n",
   "\r\n",
   "Value  Name\r\n",
   "-----------\r\n",
   "  0  Init\r\n",
   "\r\n"]

/-- Two equals markers two lines apart followed by more lines. -/
def c9contents : List String :=
  ["===========\r\n",
   "List# Types Meaning\r\n",
   "===========\r\n",
   "a\r\n",
   "b\r\n"]

/-- A register map whose table region holds one good row and then a blank
line, used as the C7 witness input. -/
def c7okContents : List String :=
  ["IGS-NT GenConfig exported registers\r\n",
   "Register(s)      Com.Obj. Name           Dim  Type       Len Dec   Min    Max Group\r\n",
   "40010            " ++ "8001     " ++ "Nominal RPM    " ++ "RPM  " ++ "Integer    " ++
     "1   " ++ "-  " ++ "-      " ++ "-      " ++ "Engine params\r\n",
   "\r\n"]

/-- A binary-kind register over the value map with keys 0 and 1, used by the
C5 witness. -/
def c5wreg : Register :=
  Register.init 40200 1 "BIN" "" "binary1" none none none none (some c5tm)

/-- A bound that carries no indirection marker (absent, or a star-free
string): the resolution pass leaves such bounds untouched. -/
def boundClean : Option String → Bool
  | none => true
  | some s => !(s.toList.contains '*')

/-- Descriptor A of the specification example: comm-object 10, max 100. -/
def c6A : ParsedRegister :=
  { register := 40001, comm_obj := 10, name := "A", units := "", datatype := "Integer",
    points := 1, decimals := none, min := none, max := some "100", group := "G" }

/-- Descriptor B of the specification example: max indirected through
comm-object 10. -/
def c6B : ParsedRegister :=
  { register := 40002, comm_obj := 20, name := "B", units := "", datatype := "Integer",
    points := 1, decimals := none, min := none, max := some "*10", group := "G" }

/-! ## Claim C1 -/

/-- Claim C1 counterexample: for a list-typed descriptor with a decoded value
and declared bounds, validation returns pass (Python True), which is not the
not-applicable result (Python None) the claim requires. -/
theorem c1_counterexample :
    (Register.decode c1reg [5]).bind Register.validate = Except.ok (some true) ∧
      (Except.ok (some true) : Except String (Option Bool)) ≠ Except.ok none := by
  constructor
  · decide
  · decide

/-- Claim C1 amended: for a descriptor whose datatype contains the list
marker, validation of a present decoded value returns pass (True) while
skipping the bound checks entirely; the not-applicable result (None) is
returned only when no value was decoded. -/
theorem c1_theorem :
    (∀ (r : Register) (v : PValue), r.params.value = some v →
        strContains "list" r.params.datatype = true → r.validate = Except.ok (some true)) ∧
      (∀ r : Register, r.params.value = none → r.validate = Except.ok none) := by
  constructor
  · intro r v hv hl
    simp [Register.validate, hv, hl]
  · intro r hv
    simp [Register.validate, hv]

/-- Claim C1 witness: the amended statement applied to a concrete decoded
list register and to a concrete value-less register. -/
theorem c1_witness :
    Register.validate c1regDecoded = Except.ok (some true) ∧
      Register.validate c1regEmpty = Except.ok none :=
  ⟨c1_theorem.1 c1regDecoded (PValue.str "5: Run") rfl rfl, c1_theorem.2 c1regEmpty rfl⟩

/-! ## Claim C2 -/

/-- Claim C2 counterexample: a row whose datatype field reads Integer with no
hash mark parses to the datatype Integer unchanged, which is not a lowercase
string. -/
theorem c2_counterexample :
    (parse_register c2line).map (fun pr => pr.datatype) = Except.ok "Integer" ∧
      pyLower "Integer" ≠ "Integer" := by
  constructor
  · decide
  · decide

/-- Inversion of a successful Except bind. -/
theorem exceptBindOk {ε α β : Type} {x : Except ε α} {f : α → Except ε β} {b : β}
    (h : x >>= f = Except.ok b) : ∃ a, x = Except.ok a ∧ f a = Except.ok b := by
  cases x with
  | error e => exact nomatch h
  | ok a => exact ⟨a, rfl, h⟩

/-- Claim C2 amended: the datatype field is hash-stripped and lower-cased
exactly when the raw field contains a hash mark; a field without one is kept
verbatim, case preserved. -/
theorem c2_theorem :
    ∀ (line : String) (pr : ParsedRegister), parse_register line = Except.ok pr →
      pr.datatype =
        (if strContains "#" (pyStrip (pySlice line 46 57)) then
          pyLower (removeChar '#' (pyStrip (pySlice line 46 57)))
        else pyStrip (pySlice line 46 57)) := by
  intro line pr h
  simp only [parse_register] at h
  obtain ⟨register, h1, h⟩ := exceptBindOk h
  obtain ⟨comm_obj, h2, h⟩ := exceptBindOk h
  obtain ⟨points, h3, h⟩ := exceptBindOk h
  by_cases h4 : (pyStrip (pySlice line 61 64) == "-") = true
  · rw [if_pos h4] at h
    obtain ⟨decimals, h5, h⟩ := exceptBindOk h
    injection h with hh
    subst hh
    rfl
  · rw [if_neg h4] at h
    obtain ⟨decimals, h5, h⟩ := exceptBindOk h
    injection h with hh
    subst hh
    rfl

/-- Claim C2 witness: the amended statement applied to the concrete Integer
row. -/
theorem c2_witness :
    c2rec.datatype =
      (if strContains "#" (pyStrip (pySlice c2line 46 57)) then
        pyLower (removeChar '#' (pyStrip (pySlice c2line 46 57)))
      else pyStrip (pySlice c2line 46 57)) :=
  c2_theorem c2line c2rec (by decide)

/-! ## Claim C3 -/

/-- Claim C3 (a code bug): with one declared decimal digit, decoding a text
register does not skip scaling; the string is multiplied by the float scaler
and the call fails with TypeError, while a numeric register with the same
declared decimals decodes fine. -/
theorem c3_theorem :
    Register.decode c3strReg [16706] = Except.error "TypeError" ∧
      (Register.decode c3intReg [7]).isOk = true := by
  constructor
  · decide
  · decide

/-! ## Claim C4 -/

/-- Claim C4 (a code bug): a list-typed decode with a mapped key yields the
key-colon-label string and a missing key fails that decode call with KeyError,
but the KeyError is not caught by the batch loop: a batch holding the failing
register followed by a healthy one aborts instead of decoding the second. -/
theorem c4_theorem :
    (Register.decode c4reg [5]).map (fun r => r.params.value) =
        Except.ok (some (PValue.str "5: Run")) ∧
      Register.decode c4reg [6] = Except.error "KeyError" ∧
      query_all_parameters [(c4reg, some [6]), (c4regAfter, some [7])] =
        Except.error "KeyError" := by
  refine ⟨?_, ?_, ?_⟩
  · decide
  · decide
  · decide

/-! ## Claim C10 -/

/-- Claim C10: every register built by the facade carries the Modbus address
register - 40000 - 1, and a successful decode changes only the stored value:
address, register number, point count and both bounds are carried over
unchanged (validate computes a flag and never writes params at all). -/
theorem c10_theorem :
    (∀ (pr : ResolvedRegister) (cts : List (String × Typemap)),
        (mkRegister pr cts).params.address = pr.register - 40000 - 1) ∧
      (∀ (r : Register) (data : List Nat) (r1 : Register),
        Register.decode r data = Except.ok r1 →
          r1.params.address = r.params.address ∧
          r1.params.register = r.params.register ∧
          r1.params.points = r.params.points ∧
          r1.params.min = r.params.min ∧
          r1.params.max = r.params.max) := by
  constructor
  · intro pr cts
    rfl
  · intro r data r1 h
    rw [Register.decode] at h
    cases hv : Register.decodeValue r data <;> rw [hv] at h
    · exact nomatch h
    · cases h
      exact ⟨rfl, rfl, rfl, rfl, rfl⟩

/-- Claim C10 witness: the two parts applied to a concrete facade register and
a concrete successful decode. -/
theorem c10_witness :
    (mkRegister c10row []).params.address = c10row.register - 40000 - 1 ∧
      (({ c10reg with params := { c10reg.params with value := some (PValue.str "AB") } }
          : Register).params.address = c10reg.params.address ∧
        ({ c10reg with params := { c10reg.params with value := some (PValue.str "AB") } }
          : Register).params.register = c10reg.params.register ∧
        ({ c10reg with params := { c10reg.params with value := some (PValue.str "AB") } }
          : Register).params.points = c10reg.params.points ∧
        ({ c10reg with params := { c10reg.params with value := some (PValue.str "AB") } }
          : Register).params.min = c10reg.params.min ∧
        ({ c10reg with params := { c10reg.params with value := some (PValue.str "AB") } }
          : Register).params.max = c10reg.params.max) :=
  ⟨c10_theorem.1 c10row [],
    c10_theorem.2 c10reg [16706]
      { c10reg with params := { c10reg.params with value := some (PValue.str "AB") } }
      (by decide)⟩

/-! ## Claim C7 counterexample -/

/-- Claim C7 counterexample: a non-blank row whose comm-object field is not an
integer makes the register-table phase fail with ValueError instead of
terminating the region and returning the rows read so far. -/
theorem c7_counterexample :
    parseRegisters c7contents = Except.error "ValueError" ∧
      (∀ res : List ParsedRegister × Nat, parseRegisters c7contents ≠ Except.ok res) := by
  constructor
  · decide
  · intro res h
    rw [show parseRegisters c7contents = Except.error "ValueError" from by decide] at h
    exact nomatch h

/-! ## Claim C8 counterexample -/

/-- Claim C8 counterexample: a line sequence matching the shape the claim
states (rule at 0, accepted header two lines later at 2, rule at 3) is not
accepted as a type; the scan walks on to the terminator and yields none. -/
theorem c8_counterexample :
    pyTake 11 (removeChar '\r' (c8claimShaped.getD 0 "")) = elevenDashes ∧
      replaceCRLF (c8claimShaped.getD 2 "") = "Value  Name" ∧
      pyTake 11 (removeChar '\r' (c8claimShaped.getD 3 "")) = elevenDashes ∧
      find_and_parse_type c8claimShaped 0 = Except.ok (none, 4) := by
  refine ⟨?_, ?_, ?_, ?_⟩
  · decide
  · decide
  · decide
  · decide

/-! ## Claim C9 counterexample -/

/-- Claim C9 counterexample: with the marker pair at lines 0 and 2, the search
resumes at line 3 (one past the second marker), not at line 4 (two past it) as
the claim states. -/
theorem c9_counterexample :
    searchEquals c9contents 0 = Except.ok 3 ∧
      searchEquals c9contents 0 ≠ Except.ok (2 + 2) := by
  constructor
  · decide
  · decide

/-! ## Claim C9 amended theorem -/

/-- getD agrees with a successful get?. -/
theorem listGetD_of_getQ {α : Type} {l : List α} {n : Nat} {a : α} (d : α)
    (h : l.get? n = some a) : l.getD n d = a := by
  simp [List.getD_eq_getElem?_getD, ← List.get?_eq_getElem?, h]

/-- A successful get? at any index below the length. -/
theorem getQ_isSome {α : Type} (l : List α) {n : Nat} (h : n < l.length) :
    ∃ a, l.get? n = some a := by
  cases hx : l.get? n with
  | none => exact absurd (List.get?_eq_none.1 hx) (by omega)
  | some a => exact ⟨a, rfl⟩

/-- The equals-marker search finds the first marker pair and returns the index
one past the pair (three past the first marker). -/
theorem searchEqualsGo_found (contents : List String) :
    ∀ (d fuel start : Nat), d < fuel →
      start + d + 2 < contents.length →
      (∀ q, start ≤ q → q < start + d →
        (eqMark contents q && eqMark contents (q + 2)) = false) →
      eqMark contents (start + d) = true →
      eqMark contents (start + d + 2) = true →
      searchEqualsGo contents fuel start = Except.ok (start + d + 3) := by
  intro d
  induction d with
  | zero =>
    intro fuel start hf hin hpre hm1 hm2
    cases fuel with
    | zero => omega
    | succ f =>
      obtain ⟨r1, hr1⟩ := getQ_isSome contents (show start < contents.length by omega)
      obtain ⟨r2, hr2⟩ := getQ_isSome contents (show start + 2 < contents.length by omega)
      unfold eqMark at hm1 hm2
      rw [Nat.add_zero] at hm1 hm2
      rw [listGetD_of_getQ "" hr1] at hm1
      rw [listGetD_of_getQ "" hr2] at hm2
      simp only [searchEqualsGo, hr1, hr2]
      rw [if_pos (by rw [hm1, hm2]; rfl)]
  | succ n ih =>
    intro fuel start hf hin hpre hm1 hm2
    cases fuel with
    | zero => omega
    | succ f =>
      obtain ⟨r1, hr1⟩ := getQ_isSome contents (show start < contents.length by omega)
      obtain ⟨r2, hr2⟩ := getQ_isSome contents (show start + 2 < contents.length by omega)
      have hcur := hpre start (Nat.le_refl _) (by omega)
      unfold eqMark at hcur
      rw [listGetD_of_getQ "" hr1, listGetD_of_getQ "" hr2] at hcur
      simp only [searchEqualsGo, hr1, hr2]
      rw [if_neg (by rw [hcur]; exact Bool.false_ne_true)]
      have hstep : start + 1 + n = start + (n + 1) := by omega
      have := ih f (start + 1) (by omega) (by omega)
        (fun q h1 h2 => hpre q (by omega) (by omega))
        (by rw [hstep]; exact hm1)
        (by rw [show start + 1 + n + 2 = start + (n + 1) + 2 by omega]; exact hm2)
      rw [this]
      congr 1
      omega

/-- Claim C9 amended: the scanner stops at the first pair of lines, two apart,
both beginning with eleven equals characters, and resumes scanning one line
past the second marker line, that is at the index of the second marker plus
one. -/
theorem c9_theorem :
    ∀ (contents : List String) (d start : Nat),
      start + d + 2 < contents.length →
      (∀ q, start ≤ q → q < start + d →
        (eqMark contents q && eqMark contents (q + 2)) = false) →
      eqMark contents (start + d) = true →
      eqMark contents (start + d + 2) = true →
      searchEquals contents start = Except.ok ((start + d + 2) + 1) := by
  intro contents d start hin hpre hm1 hm2
  unfold searchEquals
  rw [searchEqualsGo_found contents d (contents.length + 1) start (by omega) hin hpre hm1 hm2]

/-- Claim C9 witness: the amended statement applied to the concrete marker
pair at lines 0 and 2, resuming at line 3. -/
theorem c9_witness : searchEquals c9contents 0 = Except.ok ((0 + 0 + 2) + 1) :=
  c9_theorem c9contents 0 0 (by decide)
    (fun q h1 h2 => absurd h2 (by omega)) (by decide) (by decide)

/-! ## Claim C7 amended theorem -/

/-- The register-table loop over a well-formed prefix: with d parseable
non-blank rows ahead, a blank line at the end of the prefix stops the loop
with exactly those rows appended, while a row whose integer fields fail to
parse aborts the loop with the ValueError of the conversion. -/
theorem parseRegistersGo_spec (contents : List String) :
    ∀ (d fuel start : Nat) (acc prs : List ParsedRegister),
      d < fuel →
      start + d < contents.length →
      (∀ m, start ≤ m → m < start + d → removeChar '\r' (contents.getD m "") ≠ "\n") →
      (List.range' start d).mapM
          (fun m => parse_register (removeChar '\r' (contents.getD m ""))) = Except.ok prs →
      ((removeChar '\r' (contents.getD (start + d) "") = "\n" →
          parseRegistersGo contents fuel start acc = Except.ok (acc ++ prs, start + d)) ∧
        (∀ e, removeChar '\r' (contents.getD (start + d) "") ≠ "\n" →
          parse_register (removeChar '\r' (contents.getD (start + d) "")) = Except.error e →
          parseRegistersGo contents fuel start acc = Except.error e)) := by
  intro d
  induction d with
  | zero =>
    intro fuel start acc prs hf hin hrows hmap
    cases fuel with
    | zero => omega
    | succ f =>
      obtain ⟨raw, hraw⟩ := getQ_isSome contents (show start < contents.length by omega)
      have hD : contents.getD start "" = raw := listGetD_of_getQ "" hraw
      have hprs : prs = [] := by
        have : (Except.ok ([] : List ParsedRegister) : Except String (List ParsedRegister))
            = Except.ok prs := hmap
        exact (Except.ok.inj this).symm
      subst hprs
      rw [Nat.add_zero] at hin ⊢
      constructor
      · intro hbl
        rw [hD] at hbl
        simp only [parseRegistersGo, hraw]
        rw [if_pos (by rw [hbl]; rfl)]
        rw [List.append_nil]
      · intro e hbl hpe
        rw [hD] at hbl hpe
        simp only [parseRegistersGo, hraw]
        rw [if_neg (by simpa using hbl)]
        rw [hpe]
        rfl
  | succ n ih =>
    intro fuel start acc prs hf hin hrows hmap
    cases fuel with
    | zero => omega
    | succ f =>
      obtain ⟨raw, hraw⟩ := getQ_isSome contents (show start < contents.length by omega)
      have hD : contents.getD start "" = raw := listGetD_of_getQ "" hraw
      have hnotbl : removeChar '\r' raw ≠ "\n" := by
        have := hrows start (Nat.le_refl _) (by omega)
        rwa [hD] at this
      rw [List.range'_succ, List.mapM_cons] at hmap
      obtain ⟨pr0, hp0, hmap⟩ := exceptBindOk hmap
      obtain ⟨rest0, hrest, hmap⟩ := exceptBindOk hmap
      injection hmap with hh
      subst hh
      rw [hD] at hp0
      have hgo : parseRegistersGo contents (f + 1) start acc
          = parseRegistersGo contents f (start + 1) (acc ++ [pr0]) := by
        simp only [parseRegistersGo, hraw]
        rw [if_neg (by simpa using hnotbl)]
        rw [hp0]
        rfl
      have hidx : start + 1 + n = start + (n + 1) := by omega
      have ihres := ih f (start + 1) (acc ++ [pr0]) rest0 (by omega) (by omega)
        (fun m h1 h2 => hrows m (by omega) (by omega)) hrest
      rw [hidx] at ihres
      constructor
      · intro hbl
        rw [hgo, ihres.1 hbl, List.append_assoc]
        rfl
      · intro e hbl hpe
        rw [hgo]
        exact ihres.2 e hbl hpe

/-- Claim C7 amended: starting at line 2, with d parseable non-blank rows
ahead, the register-table phase stops exactly on a blank line, returning those
rows, and aborts with the ValueError of the integer conversion when the next
line is non-blank and unparseable; nothing else ends the region. -/
theorem c7_theorem :
    ∀ (contents : List String) (d : Nat) (prs : List ParsedRegister),
      2 + d < contents.length →
      (∀ m, 2 ≤ m → m < 2 + d → removeChar '\r' (contents.getD m "") ≠ "\n") →
      (List.range' 2 d).mapM
          (fun m => parse_register (removeChar '\r' (contents.getD m ""))) = Except.ok prs →
      ((removeChar '\r' (contents.getD (2 + d) "") = "\n" →
          parseRegisters contents = Except.ok (prs, 2 + d)) ∧
        (∀ e, removeChar '\r' (contents.getD (2 + d) "") ≠ "\n" →
          parse_register (removeChar '\r' (contents.getD (2 + d) "")) = Except.error e →
          parseRegisters contents = Except.error e)) := by
  intro contents d prs hin hrows hmap
  have hres := parseRegistersGo_spec contents d (contents.length + 1) 2 [] prs
    (by omega) hin hrows hmap
  constructor
  · intro hbl
    have := hres.1 hbl
    rw [parseRegisters, this]
    rfl
  · intro e hbl hpe
    have := hres.2 e hbl hpe
    rw [parseRegisters, this]

/-- Claim C7 witness: the amended statement applied to a one-row table closed
by a blank line. -/
theorem c7_witness : parseRegisters c7okContents = Except.ok ([c2rec], 2 + 1) :=
  (c7_theorem c7okContents 1 [c2rec] (by decide)
      (fun m h1 h2 => by
        have hm : m = 2 := by omega
        subst hm
        decide)
      (by decide)).1 (by decide)

/-! ## Claim C8 amended theorem -/

/-- The header search accepts at the first position carrying the real shape:
rule at p, header at p + 3, rule at p + 4, with no terminator line and no
earlier shape before it; the type name comes from line p + 1 and the body
starts at p + 5. -/
theorem searchTypeStartGo_found (contents : List String) :
    ∀ (d fuel start : Nat), d < fuel →
      start + d + 4 < contents.length →
      (∀ q, start ≤ q → q < start + d →
        replaceCRLF (contents.getD q "") ≠ typeTerminator ∧ shapeAt contents q = false) →
      replaceCRLF (contents.getD (start + d) "") ≠ typeTerminator →
      shapeAt contents (start + d) = true →
      searchTypeStartGo contents fuel start =
        Except.ok (Sum.inr
          (pyLower (removeChar '#' (replaceCRLF (contents.getD (start + d + 1) ""))),
            start + d + 5)) := by
  intro d
  induction d with
  | zero =>
    intro fuel start hf hin hpre hterm hshape
    cases fuel with
    | zero => omega
    | succ f =>
      rw [Nat.add_zero] at hin hterm hshape
      obtain ⟨raw, hraw⟩ := getQ_isSome contents (show start < contents.length by omega)
      obtain ⟨l1, hl1⟩ := getQ_isSome contents (show start + 1 < contents.length by omega)
      obtain ⟨l3, hl3⟩ := getQ_isSome contents (show start + 3 < contents.length by omega)
      obtain ⟨l4, hl4⟩ := getQ_isSome contents (show start + 4 < contents.length by omega)
      rw [listGetD_of_getQ "" hraw] at hterm
      unfold shapeAt at hshape
      rw [listGetD_of_getQ "" hraw, listGetD_of_getQ "" hl3, listGetD_of_getQ "" hl4] at hshape
      simp only [searchTypeStartGo, hraw, hl1, hl3, hl4]
      rw [if_neg (by simpa using hterm)]
      rw [if_pos hshape]
      rw [Nat.add_zero, listGetD_of_getQ "" hl1]
  | succ n ih =>
    intro fuel start hf hin hpre hterm hshape
    cases fuel with
    | zero => omega
    | succ f =>
      obtain ⟨raw, hraw⟩ := getQ_isSome contents (show start < contents.length by omega)
      obtain ⟨l3, hl3⟩ := getQ_isSome contents (show start + 3 < contents.length by omega)
      obtain ⟨l4, hl4⟩ := getQ_isSome contents (show start + 4 < contents.length by omega)
      obtain ⟨hterm0, hshape0⟩ := hpre start (Nat.le_refl _) (by omega)
      rw [listGetD_of_getQ "" hraw] at hterm0
      unfold shapeAt at hshape0
      rw [listGetD_of_getQ "" hraw, listGetD_of_getQ "" hl3, listGetD_of_getQ "" hl4] at hshape0
      simp only [searchTypeStartGo, hraw, hl3, hl4]
      rw [if_neg (by simpa using hterm0)]
      rw [if_neg (by rw [hshape0]; exact Bool.false_ne_true)]
      have hidx : start + 1 + n = start + (n + 1) := by omega
      have := ih f (start + 1) (by omega) (by omega)
        (fun q h1 h2 => hpre q (by omega) (by omega))
        (by rw [hidx]; exact hterm)
        (by rw [hidx]; exact hshape)
      rw [this, hidx]

/-- Whenever the header search accepts, some position at or past the start
carries the real shape (rule, header three later, rule four later, no
terminator), and the returned name and body start come from that position. -/
theorem searchTypeStartGo_sound (contents : List String) :
    ∀ (fuel start : Nat) (nm : String) (st : Nat),
      searchTypeStartGo contents fuel start = Except.ok (Sum.inr (nm, st)) →
      ∃ p, start ≤ p ∧ replaceCRLF (contents.getD p "") ≠ typeTerminator ∧
        shapeAt contents p = true ∧
        nm = pyLower (removeChar '#' (replaceCRLF (contents.getD (p + 1) ""))) ∧
        st = p + 5 := by
  intro fuel
  induction fuel with
  | zero =>
    intro start nm st h
    exact nomatch h
  | succ f ih =>
    intro start nm st h
    cases hraw : contents.get? start with
    | none =>
      simp only [searchTypeStartGo, hraw] at h
      exact nomatch h
    | some raw =>
      simp only [searchTypeStartGo, hraw] at h
      by_cases hterm : (replaceCRLF raw == typeTerminator) = true
      · rw [if_pos hterm] at h
        injection h with hh
        exact nomatch hh
      · rw [if_neg hterm] at h
        cases hl3 : contents.get? (start + 3) with
        | none => simp only [hl3] at h; exact nomatch h
        | some l3 =>
          simp only [hl3] at h
          cases hl4 : contents.get? (start + 4) with
          | none => simp only [hl4] at h; exact nomatch h
          | some l4 =>
            simp only [hl4] at h
            by_cases hc : (pyTake 11 (removeChar '\r' raw) == elevenDashes
                && (replaceCRLF l3 == "Bit  Name" || replaceCRLF l3 == "Value  Name")
                && pyTake 11 (removeChar '\r' l4) == elevenDashes) = true
            · rw [if_pos hc] at h
              cases hl1 : contents.get? (start + 1) with
              | none => simp only [hl1] at h; exact nomatch h
              | some l1 =>
                simp only [hl1] at h
                injection h with hh
                injection hh with hh
                refine ⟨start, Nat.le_refl _, ?_, ?_, ?_, ?_⟩
                · rw [listGetD_of_getQ "" hraw]
                  intro hx
                  exact hterm (by rw [hx]; rfl)
                · unfold shapeAt
                  rw [listGetD_of_getQ "" hraw, listGetD_of_getQ "" hl3,
                    listGetD_of_getQ "" hl4]
                  exact hc
                · rw [listGetD_of_getQ "" hl1]
                  exact (congrArg Prod.fst hh).symm
                · exact (congrArg Prod.snd hh).symm
            · rw [if_neg hc] at h
              obtain ⟨p, hp1, hp2, hp3, hp4, hp5⟩ := ih (start + 1) nm st h
              exact ⟨p, by omega, hp2, hp3, hp4, hp5⟩

/-- Claim C8 amended: the custom-type sub-scan recognizes a type exactly when
an eleven-dash rule starts some line L, a header line equal to one of the two
accepted literals stands at L + 3, and another eleven-dash rule starts L + 4;
the type name is taken from L + 1 (hash-stripped and lower-cased) and the body
begins at L + 5.  Both directions are stated: the first such shape with no
terminator line before it is accepted, and every acceptance arises from such a
shape. -/
theorem c8_theorem :
    (∀ (contents : List String) (d start : Nat),
      start + d + 4 < contents.length →
      (∀ q, start ≤ q → q < start + d →
        replaceCRLF (contents.getD q "") ≠ typeTerminator ∧ shapeAt contents q = false) →
      replaceCRLF (contents.getD (start + d) "") ≠ typeTerminator →
      shapeAt contents (start + d) = true →
      searchTypeStart contents start =
        Except.ok (Sum.inr
          (pyLower (removeChar '#' (replaceCRLF (contents.getD (start + d + 1) ""))),
            start + d + 5))) ∧
    (∀ (contents : List String) (start : Nat) (nm : String) (st : Nat),
      searchTypeStart contents start = Except.ok (Sum.inr (nm, st)) →
      ∃ p, start ≤ p ∧ replaceCRLF (contents.getD p "") ≠ typeTerminator ∧
        shapeAt contents p = true ∧
        nm = pyLower (removeChar '#' (replaceCRLF (contents.getD (p + 1) ""))) ∧
        st = p + 5) := by
  constructor
  · intro contents d start hin hpre hterm hshape
    unfold searchTypeStart
    exact searchTypeStartGo_found contents d (contents.length + 1) start (by omega)
      hin hpre hterm hshape
  · intro contents start nm st h
    exact searchTypeStartGo_sound contents (contents.length + 1) start nm st h

/-- Claim C8 witness: the completeness direction applied to a concrete input
shaped as the source accepts (rule, name, blank, header, rule). -/
theorem c8_witness :
    searchTypeStart c8codeShaped 0 =
      Except.ok (Sum.inr
        (pyLower (removeChar '#' (replaceCRLF (c8codeShaped.getD (0 + 0 + 1) ""))),
          0 + 0 + 5)) :=
  c8_theorem.1 c8codeShaped 0 0 (by decide)
    (fun q h1 h2 => absurd h2 (by omega)) (by decide) (by decide)

/-! ## Claim C5 -/

/-- Claim C5 counterexample: a binary-kind value map whose only key is bit
index 1 makes the decode fail with KeyError (the loop looks up index 0 first),
instead of yielding the fragment for the one bit index present in the map as
the claim requires (bit 1 of the word 2 is set, so the claim predicts X: 1). -/
theorem c5_counterexample :
    Register.decodeValue c5reg [2] = Except.error "KeyError" ∧
      (Except.error "KeyError" : Except String (Option PValue)) ≠
        Except.ok (some (PValue.str "X: 1")) := by
  constructor
  · decide
  · decide

/-- The digits of natToBinGo, least significant first: digit i is bit i. -/
theorem natToBinGo_getQ :
    ∀ (fuel n i : Nat), n ≤ fuel →
      (natToBinGo fuel n).get? i =
        (if n / 2 ^ i = 0 then none
         else some (if n / 2 ^ i % 2 = 1 then '1' else '0')) := by
  intro fuel
  induction fuel with
  | zero =>
    intro n i hn
    have hn0 : n = 0 := by omega
    subst hn0
    simp [natToBinGo, Nat.zero_div]
  | succ f ih =>
    intro n i hn
    cases n with
    | zero => simp [natToBinGo, Nat.zero_div]
    | succ m =>
      cases i with
      | zero =>
        rcases Nat.mod_two_eq_zero_or_one (m + 1) with h2 | h2 <;>
          simp [natToBinGo, h2]
      | succ i =>
        have hrec : (m + 1) / 2 ≤ f := by omega
        simp only [natToBinGo, List.get?]
        rw [ih ((m + 1) / 2) i hrec]
        rw [Nat.div_div_eq_div_mul]
        rw [show 2 * 2 ^ i = 2 ^ (i + 1) by rw [Nat.pow_succ]; ring]

/-- Evaluation of a negative Python index through get?. -/
theorem pyNegIndex_eq {s : String} {i : Nat} {c : Char}
    (h : i < s.toList.length)
    (hc : s.toList.get? (s.toList.length - 1 - i) = some c) :
    pyNegIndex s i = Except.ok c := by
  show (if hx : i < s.toList.length then
      Except.ok (s.toList.get ⟨s.toList.length - 1 - i, by omega⟩)
    else Except.error "IndexError") = Except.ok c
  rw [dif_pos h]
  obtain ⟨hlt, hg⟩ := List.get?_eq_some.1 hc
  exact congrArg Except.ok hg

/-- Character -1-i of the 16-character zero-filled binary rendering of a
16 bit word is bit i of the word. -/
theorem bit_char (w i : Nat) (hw : w < 65536) (hi : i < 16) :
    pyNegIndex (zfill 16 (natToBin w)) i =
      Except.ok (if w / 2 ^ i % 2 = 1 then '1' else '0') := by
  by_cases hw0 : w = 0
  · subst hw0
    have hz : (zfill 16 (natToBin 0)).toList = List.replicate 16 '0' := by decide
    have hlen : (zfill 16 (natToBin 0)).toList.length = 16 := by rw [hz]; simp
    refine pyNegIndex_eq (by omega) ?_
    rw [hz, List.length_replicate]
    have hg : (List.replicate 16 '0').get? (16 - 1 - i) = some '0' :=
      List.get?_eq_some.2 ⟨by simpa using (by omega : 16 - 1 - i < 16),
        List.get_replicate '0' _⟩
    rw [hg]
    simp [Nat.zero_div]
  · have hbin : natToBin w = ⟨(natToBinGo w w).reverse⟩ := by
      unfold natToBin
      rw [if_neg (by simpa using hw0)]
    have hL16 : (natToBinGo w w).length ≤ 16 := by
      have h16 := natToBinGo_getQ w w 16 (Nat.le_refl w)
      rw [if_pos (Nat.div_eq_of_lt
        (by rw [show (2 : Nat) ^ 16 = 65536 by norm_num]; exact hw))] at h16
      exact List.get?_eq_none.1 h16
    have hF : (zfill 16 (natToBin w)).toList =
        List.replicate (16 - (natToBinGo w w).length) '0' ++ (natToBinGo w w).reverse := by
      rw [hbin]
      show List.replicate (16 - (String.mk ((natToBinGo w w).reverse)).length) '0' ++
          (String.mk ((natToBinGo w w).reverse)).toList = _
      show List.replicate (16 - ((natToBinGo w w).reverse).length) '0' ++
          (natToBinGo w w).reverse = _
      rw [List.length_reverse]
    have hFlen : ((zfill 16 (natToBin w)).toList).length = 16 := by
      rw [hF]
      simp
      omega
    refine pyNegIndex_eq (by omega) ?_
    rw [hFlen, hF]
    by_cases hiL : i < (natToBinGo w w).length
    · rw [List.get?_append_right (by simp; omega)]
      rw [show 16 - 1 - i - (List.replicate (16 - (natToBinGo w w).length) '0').length
          = (natToBinGo w w).length - 1 - i by simp; omega]
      rw [List.get?_reverse (by omega : (natToBinGo w w).length - 1 - i
          < (natToBinGo w w).length)]
      rw [show (natToBinGo w w).length - 1 - ((natToBinGo w w).length - 1 - i) = i by omega]
      have hchar := natToBinGo_getQ w w i (Nat.le_refl w)
      have hne : w / 2 ^ i ≠ 0 := by
        intro h0
        rw [if_pos h0] at hchar
        exact absurd (List.get?_eq_none.1 hchar) (by omega)
      rw [if_neg hne] at hchar
      exact hchar
    · have hzero : w / 2 ^ i = 0 := by
        have hchar := natToBinGo_getQ w w i (Nat.le_refl w)
        by_contra hne
        rw [if_neg hne] at hchar
        rw [List.get?_eq_none.2 (by omega : (natToBinGo w w).length ≤ i)] at hchar
        exact nomatch hchar
      rw [List.get?_append (by simp; omega)]
      have hg : (List.replicate (16 - (natToBinGo w w).length) '0').get? (16 - 1 - i)
          = some '0' :=
        List.get?_eq_some.2 ⟨by simpa using (by omega : 16 - 1 - i
          < 16 - (natToBinGo w w).length), List.get_replicate '0' _⟩
      rw [hg, hzero]
      norm_num

/-- Bind of a successful Except computation. -/
theorem exceptOkBind {ε α β : Type} (a : α) (f : α → Except ε β) :
    (Except.ok a >>= f : Except ε β) = f a := rfl

/-- Decoding one unsigned 16 bit word from the payload of a single register
word recovers the word. -/
theorem decodeU16_single (w : Nat) (hw : w < 65536) :
    decodeU16 (wordsToBytes [w]) 0 = Except.ok w := by
  show Except.ok (w / 256 % 256 * 256 + w % 256) = Except.ok w
  congr 1
  have hd : w / 256 < 256 := by omega
  rw [Nat.mod_eq_of_lt hd]
  omega

/-- The binary overlay loop over indices i, i+1, ..., i+rem-1: when every
index is a key of the value map and all indices stay below 16, each line is
the label joined with bit j of the word. -/
theorem overlayGo_ok (tm : Typemap) (w : Nat) (hw : w < 65536) :
    ∀ (rem i : Nat), i + rem ≤ 16 →
      (∀ j, i ≤ j → j < i + rem → (tmLookup tm (j : Int)).isSome = true) →
      overlayGo tm (zfill 16 (natToBin w)) i rem =
        Except.ok ((List.range' i rem).map (fun j : Nat =>
          (tmLookup tm (Int.ofNat j)).getD "" ++ ": " ++
            String.singleton (if w / 2 ^ j % 2 = 1 then '1' else '0'))) := by
  intro rem
  induction rem with
  | zero =>
    intro i hle hall
    rfl
  | succ n ih =>
    intro i hle hall
    obtain ⟨l, hl⟩ := Option.isSome_iff_exists.1 (hall i (Nat.le_refl _) (by omega))
    have hbc := bit_char w i hw (by omega)
    have hrest := ih (i + 1) (by omega) (fun j h1 h2 => hall j (by omega) (by omega))
    simp only [overlayGo, hl, hbc, hrest, exceptOkBind]
    rw [List.range'_succ]
    simp [hl]

/-- Claim C5 amended: for a register with an attached binary-kind custom type
(and a datatype matching none of the basic branches, no scaler), the decode of
one word iterates the bit indices 0 .. size-1 of the value map; when the map
keys are exactly those indices (and the map has at most 16 entries), the value
is the comma-joined list of label-colon-bit fragments, where the fragment for
index j carries bit j of the word (character 15 - j of its 16-character
zero-padded binary rendering). -/
theorem c5_theorem :
    ∀ (p : RegParams) (tm : Typemap) (w : Nat),
      p.scaler = none →
      strContains "binary" p.datatype = true →
      strContains "list" p.datatype = false →
      decodeBasic p.datatype p.points (wordsToBytes [w]) [w] = Except.ok (none, 0) →
      w < 65536 →
      tmLen tm ≤ 16 →
      (∀ i, i < tmLen tm → (tmLookup tm (Int.ofNat i)).isSome = true) →
      Register.decodeValue ⟨p, some tm⟩ [w] =
        Except.ok (some (PValue.str (String.intercalate ", "
          ((List.range' 0 (tmLen tm)).map (fun j : Nat =>
            (tmLookup tm (Int.ofNat j)).getD "" ++ ": " ++
              String.singleton (if w / 2 ^ j % 2 = 1 then '1' else '0')))))) := by
  intro p tm w hsc hbin hlist hbasic hw hlen hall
  have hoverlay : binaryOverlay tm w =
      Except.ok (String.intercalate ", "
        ((List.range' 0 (tmLen tm)).map (fun j : Nat =>
          (tmLookup tm (Int.ofNat j)).getD "" ++ ": " ++
            String.singleton (if w / 2 ^ j % 2 = 1 then '1' else '0')))) := by
    have hover := overlayGo_ok tm w hw (tmLen tm) 0 (by omega)
      (fun j h1 h2 => hall j (by omega))
    simp only [binaryOverlay, hover, exceptOkBind]
  simp only [Register.decodeValue, hbasic, exceptOkBind, decodeU16_single w hw,
    hbin, hlist, hoverlay, hsc, if_true, Bool.false_eq_true, if_false]
  rfl

/-- Claim C5 witness: the amended statement applied to the specification
example map with keys 0 and 1 and the raw word 2. -/
theorem c5_witness :
    Register.decodeValue c5wreg [2] =
      Except.ok (some (PValue.str (String.intercalate ", "
        ((List.range' 0 (tmLen c5tm)).map (fun j : Nat =>
          (tmLookup c5tm (Int.ofNat j)).getD "" ++ ": " ++
            String.singleton (if 2 / 2 ^ j % 2 = 1 then '1' else '0')))))) :=
  c5_theorem c5wreg.params c5tm 2 rfl (by decide) (by decide) (by decide) (by decide)
    (by decide) (by decide)

/-! ## Claim C6 -/

/-- Setting an index to the element it already holds changes nothing. -/
theorem listSetSelf {α : Type} :
    ∀ (l : List α) (n : Nat) (a : α), l.get? n = some a → l.set n a = l := by
  intro l
  induction l with
  | nil => intro n a h; exact nomatch h
  | cons x xs ih =>
    intro n a h
    cases n with
    | zero =>
      injection h with h
      rw [List.set, h]
    | succ n =>
      rw [List.set, ih n a h]

/-- get? after set at the written index. -/
theorem getQ_set_self {α : Type} {l : List α} {n : Nat} {r : α} (a : α)
    (h : l.get? n = some r) : (l.set n a).get? n = some a := by
  rw [List.get?_set_eq, h]
  rfl

/-- A clean bound resolves to itself (max side). -/
theorem resolveBound1_clean (co : List Int) (regs : List ParsedRegister)
    {b : Option String} (h : boundClean b = true) :
    resolveBound1 co regs b = Except.ok b := by
  cases b with
  | none => rfl
  | some s =>
    have hs : s.toList.contains '*' = false := by
      simpa [boundClean] using h
    simp only [resolveBound1, hs]
    rfl

/-- A clean bound resolves to itself (min side). -/
theorem resolveBound1Min_clean (co : List Int) (regs : List ParsedRegister)
    {b : Option String} (h : boundClean b = true) :
    resolveBound1Min co regs b = Except.ok b := by
  cases b with
  | none => rfl
  | some s =>
    have hs : s.toList.contains '*' = false := by
      simpa [boundClean] using h
    simp only [resolveBound1Min, hs]
    rfl

/-- Conversion between the two spellings of list indexing. -/
theorem getElemQ_of_getQ {α : Type} {l : List α} {n : Nat} {x : Option α}
    (h : l.get? n = x) : l[n]? = x := by
  rw [← List.get?_eq_getElem?]
  exact h

/-- Processing a register whose bounds are both clean changes nothing. -/
theorem processOne_clean (co : List Int) (regs : List ParsedRegister) (k : Nat)
    (h : ∀ r, regs.get? k = some r → boundClean r.max = true ∧ boundClean r.min = true) :
    processOne co regs k = Except.ok regs := by
  cases hk : regs.get? k with
  | none => simp only [processOne, hk]
  | some r =>
    obtain ⟨hmax, hmin⟩ := h r hk
    have e1 : ({ r with max := r.max } : ParsedRegister) = r := rfl
    have hset1 : regs.set k r = regs := listSetSelf regs k r hk
    simp only [processOne, hk, resolveBound1_clean co regs hmax,
      resolveBound1Min_clean co regs hmin, exceptOkBind, e1, hset1]

/-- The reparse loop splits over a sum of fuels. -/
theorem reparseLoopN_append (co : List Int) :
    ∀ (a b m : Nat) (regs : List ParsedRegister),
      reparseLoopN co (a + b) m regs =
        (reparseLoopN co a m regs) >>= reparseLoopN co b (m + a) := by
  intro a
  induction a with
  | zero =>
    intro b m regs
    simp only [Nat.zero_add, Nat.add_zero, reparseLoopN, exceptOkBind]
  | succ n ih =>
    intro b m regs
    have hadd : n + 1 + b = (n + b) + 1 := by omega
    rw [hadd]
    show (do
        let regs1 ← processOne co regs m
        reparseLoopN co (n + b) (m + 1) regs1) =
      ((do
        let regs1 ← processOne co regs m
        reparseLoopN co n (m + 1) regs1) >>= reparseLoopN co b (m + (n + 1)))
    cases hp : processOne co regs m with
    | error e => rfl
    | ok regs1 =>
      rw [exceptOkBind, exceptOkBind, ih b (m + 1) regs1]
      rw [show m + 1 + n = m + (n + 1) by omega]

/-- The reparse loop over a range of registers with clean bounds changes
nothing. -/
theorem reparseLoopN_clean (co : List Int) :
    ∀ (fuel m : Nat) (regs : List ParsedRegister),
      (∀ k, m ≤ k → k < m + fuel →
        ∀ r, regs.get? k = some r → boundClean r.max = true ∧ boundClean r.min = true) →
      reparseLoopN co fuel m regs = Except.ok regs := by
  intro fuel
  induction fuel with
  | zero => intro m regs hcl; rfl
  | succ n ih =>
    intro m regs hcl
    show (do
        let regs1 ← processOne co regs m
        reparseLoopN co n (m + 1) regs1) = Except.ok regs
    rw [processOne_clean co regs m (fun r hr => hcl m (Nat.le_refl _) (by omega) r hr)]
    rw [exceptOkBind]
    exact ih (m + 1) regs (fun k h1 h2 r hr => hcl k (by omega) (by omega) r hr)

/-- Processing the register whose max carries the indirection marker: the max
becomes the max bound of the first register whose comm-object matches (absent
when none does), and a clean min is untouched. -/
theorem processOne_max (co : List Int) (regs : List ParsedRegister) (i : Nat)
    (r : ParsedRegister) (s : String) (N : Int)
    (hg : regs.get? i = some r) (hmax : r.max = some s)
    (hstar : s.toList.contains '*' = true) (hN : pyInt (removeChar '*' s) = some N)
    (hminclean : boundClean r.min = true) :
    processOne co regs i = Except.ok (regs.set i
      { r with max :=
          (match co.findIdx? (fun c => c == N) with
          | some j => (match regs.get? j with | some rr => rr.max | none => none)
          | none => none) }) := by
  have hres : resolveBound1 co regs r.max = Except.ok
      (match co.findIdx? (fun c => c == N) with
       | some j => (match regs.get? j with | some rr => rr.max | none => none)
       | none => none) := by
    rw [hmax]
    simp only [resolveBound1, hstar, hN, if_true]
    cases hf : (co.findIdx? (fun c => c == N)) <;> simp [hf]
  have hg1 : (regs.set i { r with max :=
      (match co.findIdx? (fun c => c == N) with
      | some j => (match regs.get? j with | some rr => rr.max | none => none)
      | none => none) }).get? i = some { r with max :=
      (match co.findIdx? (fun c => c == N) with
      | some j => (match regs.get? j with | some rr => rr.max | none => none)
      | none => none) } := getQ_set_self _ hg
  simp only [processOne, hg, hres, exceptOkBind, hg1]
  have hminrec : ({ r with max :=
      (match co.findIdx? (fun c => c == N) with
      | some j => (match regs.get? j with | some rr => rr.max | none => none)
      | none => none) } : ParsedRegister).min = r.min := rfl
  rw [hminrec, resolveBound1Min_clean co _ hminclean, exceptOkBind, List.set_set]

/-- Processing the register whose min carries the indirection marker: the min
becomes the min bound of the first register whose comm-object matches (absent
when none does), and a clean max is untouched. -/
theorem processOne_min (co : List Int) (regs : List ParsedRegister) (i : Nat)
    (r : ParsedRegister) (s : String) (N : Int)
    (hg : regs.get? i = some r) (hmin : r.min = some s)
    (hstar : s.toList.contains '*' = true) (hN : pyInt (removeChar '*' s) = some N)
    (hmaxclean : boundClean r.max = true) :
    processOne co regs i = Except.ok (regs.set i
      { r with min :=
          (match co.findIdx? (fun c => c == N) with
          | some j => (match regs.get? j with | some rr => rr.min | none => none)
          | none => none) }) := by
  have e1 : ({ r with max := r.max } : ParsedRegister) = r := rfl
  have hset1 : regs.set i r = regs := listSetSelf regs i r hg
  have hres : resolveBound1Min co regs r.min = Except.ok
      (match co.findIdx? (fun c => c == N) with
       | some j => (match regs.get? j with | some rr => rr.min | none => none)
       | none => none) := by
    rw [hmin]
    simp only [resolveBound1Min, hstar, hN, if_true]
    cases hf : (co.findIdx? (fun c => c == N)) <;> simp [hf]
  simp only [processOne, hg, resolveBound1_clean co regs hmaxclean, exceptOkBind, e1, hset1,
    hres]

/-- Claim C6: in the resolution pass of reparse_min_max_values, a descriptor
whose raw max (respectively min) bound is an indirection token star-N takes,
as its new raw bound, the bound of the same side of the first descriptor in
scan order whose comm-object equals N; when no descriptor has comm-object N,
the bound becomes absent and no error is raised.  Stated for descriptor lists
whose other rows carry star-free bounds (the pass mutates in place, so an
earlier starred row could otherwise change the referenced bound first); all
other rows come through untouched. -/
theorem c6_theorem :
    (∀ (regs : List ParsedRegister) (i : Nat) (r : ParsedRegister) (s : String) (N : Int),
      regs.get? i = some r →
      (∀ j rj, j ≠ i → regs.get? j = some rj →
        boundClean rj.max = true ∧ boundClean rj.min = true) →
      r.max = some s →
      s.toList.contains '*' = true →
      pyInt (removeChar '*' s) = some N →
      boundClean r.min = true →
      ∃ regs2,
        reparseLoopN (regs.map (fun x => x.comm_obj)) regs.length 0 regs = Except.ok regs2 ∧
        regs2.get? i = some { r with max :=
          (match (regs.map (fun x => x.comm_obj)).findIdx? (fun c => c == N) with
          | some j => (match regs.get? j with | some rr => rr.max | none => none)
          | none => none) } ∧
        (∀ j, j ≠ i → regs2.get? j = regs.get? j)) ∧
    (∀ (regs : List ParsedRegister) (i : Nat) (r : ParsedRegister) (s : String) (N : Int),
      regs.get? i = some r →
      (∀ j rj, j ≠ i → regs.get? j = some rj →
        boundClean rj.max = true ∧ boundClean rj.min = true) →
      r.min = some s →
      s.toList.contains '*' = true →
      pyInt (removeChar '*' s) = some N →
      boundClean r.max = true →
      ∃ regs2,
        reparseLoopN (regs.map (fun x => x.comm_obj)) regs.length 0 regs = Except.ok regs2 ∧
        regs2.get? i = some { r with min :=
          (match (regs.map (fun x => x.comm_obj)).findIdx? (fun c => c == N) with
          | some j => (match regs.get? j with | some rr => rr.min | none => none)
          | none => none) } ∧
        (∀ j, j ≠ i → regs2.get? j = regs.get? j)) := by
  constructor
  · intro regs i r s N hg hclean hmax hstar hN hmincl
    have hi : i < regs.length := by
      by_contra hno
      rw [List.get?_eq_none.2 (by omega)] at hg
      exact nomatch hg
    have hn : regs.length = i + (1 + (regs.length - i - 1)) := by omega
    refine ⟨regs.set i { r with max :=
      (match (regs.map (fun x => x.comm_obj)).findIdx? (fun c => c == N) with
      | some j => (match regs.get? j with | some rr => rr.max | none => none)
      | none => none) }, ?_, getQ_set_self _ hg,
      fun j hj => List.get?_set_ne _ _ (Ne.symm hj)⟩
    conv_lhs => rw [hn]
    rw [reparseLoopN_append]
    rw [reparseLoopN_clean _ i 0 regs
      (fun k h1 h2 rk hrk => hclean k rk (by omega) hrk)]
    rw [exceptOkBind, Nat.zero_add, reparseLoopN_append]
    have h1 : reparseLoopN (regs.map (fun x => x.comm_obj)) 1 i regs =
        Except.ok (regs.set i { r with max :=
          (match (regs.map (fun x => x.comm_obj)).findIdx? (fun c => c == N) with
          | some j => (match regs.get? j with | some rr => rr.max | none => none)
          | none => none) }) := by
      show (do
          let regs1 ← processOne (regs.map (fun x : ParsedRegister => x.comm_obj)) regs i
          reparseLoopN (regs.map (fun x : ParsedRegister => x.comm_obj)) 0 (i + 1) regs1) = _
      rw [processOne_max _ regs i r s N hg hmax hstar hN hmincl, exceptOkBind]
      rfl
    rw [h1, exceptOkBind]
    exact reparseLoopN_clean _ (regs.length - i - 1) (i + 1) _
      (fun k h1 h2 rk hrk => by
        rw [List.get?_set_ne _ _ (by omega : i ≠ k)] at hrk
        exact hclean k rk (by omega) hrk)
  · intro regs i r s N hg hclean hmin hstar hN hmaxcl
    have hi : i < regs.length := by
      by_contra hno
      rw [List.get?_eq_none.2 (by omega)] at hg
      exact nomatch hg
    have hn : regs.length = i + (1 + (regs.length - i - 1)) := by omega
    refine ⟨regs.set i { r with min :=
      (match (regs.map (fun x => x.comm_obj)).findIdx? (fun c => c == N) with
      | some j => (match regs.get? j with | some rr => rr.min | none => none)
      | none => none) }, ?_, getQ_set_self _ hg,
      fun j hj => List.get?_set_ne _ _ (Ne.symm hj)⟩
    conv_lhs => rw [hn]
    rw [reparseLoopN_append]
    rw [reparseLoopN_clean _ i 0 regs
      (fun k h1 h2 rk hrk => hclean k rk (by omega) hrk)]
    rw [exceptOkBind, Nat.zero_add, reparseLoopN_append]
    have h1 : reparseLoopN (regs.map (fun x => x.comm_obj)) 1 i regs =
        Except.ok (regs.set i { r with min :=
          (match (regs.map (fun x => x.comm_obj)).findIdx? (fun c => c == N) with
          | some j => (match regs.get? j with | some rr => rr.min | none => none)
          | none => none) }) := by
      show (do
          let regs1 ← processOne (regs.map (fun x : ParsedRegister => x.comm_obj)) regs i
          reparseLoopN (regs.map (fun x : ParsedRegister => x.comm_obj)) 0 (i + 1) regs1) = _
      rw [processOne_min _ regs i r s N hg hmin hstar hN hmaxcl, exceptOkBind]
      rfl
    rw [h1, exceptOkBind]
    exact reparseLoopN_clean _ (regs.length - i - 1) (i + 1) _
      (fun k h1 h2 rk hrk => by
        rw [List.get?_set_ne _ _ (by omega : i ≠ k)] at hrk
        exact hclean k rk (by omega) hrk)

/-- Claim C6 witness: the max side applied to the specification example, the
two-descriptor list where B indirects its max through the comm-object of A. -/
theorem c6_witness :
    ∃ regs2,
      reparseLoopN ([c6A, c6B].map (fun x : ParsedRegister => x.comm_obj))
        [c6A, c6B].length 0 [c6A, c6B] = Except.ok regs2 ∧
      regs2.get? 1 = some { c6B with max :=
        (match ([c6A, c6B].map (fun x : ParsedRegister => x.comm_obj)).findIdx?
            (fun c => c == (10 : Int)) with
        | some j => (match [c6A, c6B].get? j with | some rr => rr.max | none => none)
        | none => none) } ∧
      (∀ j, j ≠ 1 → regs2.get? j = [c6A, c6B].get? j) :=
  c6_theorem.1 [c6A, c6B] 1 c6B "*10" 10 rfl
    (fun j rj hj hg2 => by
      cases j with
      | zero =>
        injection hg2 with h
        subst h
        exact ⟨by decide, by decide⟩
      | succ jj =>
        cases jj with
        | zero => exact absurd rfl hj
        | succ jjj => exact nomatch hg2)
    rfl (by decide) (by decide) (by decide)
